import Mathlib

/-!
Shallow embedding of the s4 build-management tool (Rust) in Lean 4.

Modelling conventions:
* `BTreeMap<K, V>` with string keys is modelled as a `List (String × V)` kept in
  strictly ascending key order by the insertion operation (`mapInsert`), matching
  the ordered-map semantics of the source.  Lookup is first-match association
  lookup.  Well-formedness (`Setting.wf`) states the strict key ordering that
  every real `BTreeMap` satisfies.
* `BTreeSet<T>` is modelled as a `List T` with membership-tested insertion
  (`setInsert`); iteration order of sets is never relied upon by the claims.
* Filesystem state is modelled explicitly: a path is a list of components
  (canonicalisation is the identity in the model), and a `FileSystem` records
  the state of each path (absent / file / directory with an entry count) plus
  the parsed contents of the two kinds of marker files that `toml_save` /
  `toml_load` write and read.  TOML (de)serialisation of the marker structures
  is modelled as the identity on the structured values, which is the round-trip
  behaviour of the serde derives used by the source.
* Rust `usize` arithmetic that matters (the bitwise NOT in the directory
  emptiness check of `workspace.rs`) is modelled on `Nat` with an explicit
  64-bit complement, `usizeNot`.
* Fallible functions (`anyhow::Result`) are modelled with `Except String`,
  carrying the formatted error messages of the source.
-/

namespace S4

/-! ### Association map operations (model of `BTreeMap` with string keys) -/

section AssocMap

variable {V : Type} {K : Type}

/-- First-match association lookup, the model of `BTreeMap::get`. -/
def assocLookup [DecidableEq K] : List (K × V) → K → Option V
  | [], _ => none
  | (k₀, v₀) :: rest, k => if k = k₀ then some v₀ else assocLookup rest k

/-- Update the value stored at a key, or append the binding; the model of
`BTreeMap::insert` for stores whose iteration order is irrelevant. -/
def assocSet [DecidableEq K] : List (K × V) → K → V → List (K × V)
  | [], k, v => [(k, v)]
  | (k₀, v₀) :: rest, k, v =>
    if k = k₀ then (k, v) :: rest else (k₀, v₀) :: assocSet rest k v

/-- Lexicographic comparison of character lists by code point, the order
underlying Rust's `Ord for String` (and Lean's, stated in a form the kernel
can evaluate). -/
def charsLt : List Char → List Char → Bool
  | [], [] => false
  | [], _ :: _ => true
  | _ :: _, [] => false
  | a :: as, b :: bs =>
    if a.toNat < b.toNat then true
    else if b.toNat < a.toNat then false
    else charsLt as bs

/-- Lexicographic string order by code point. -/
def stringLt (a b : String) : Bool := charsLt a.data b.data

/-- Ordered insertion for string-keyed maps, the model of `BTreeMap::insert`:
the binding is placed at its sorted position, replacing an existing binding
for the same key. -/
def mapInsert : List (String × V) → String → V → List (String × V)
  | [], key, value => [(key, value)]
  | (k, v) :: rest, key, value =>
    if stringLt key k then (key, value) :: (k, v) :: rest
    else if key = k then (key, value) :: rest
    else (k, v) :: mapInsert rest key value

/-- Model of `BTreeMap::contains_key`. -/
def mapContains (m : List (String × V)) (key : String) : Bool :=
  (assocLookup m key).isSome

/-- Apply a function to the value stored at a key, in place; the model of
`get_mut` followed by a value update. -/
def mapUpdate : List (String × V) → String → (V → V) → List (String × V)
  | [], _, _ => []
  | (k, v) :: rest, key, f =>
    if key = k then (k, f v) :: rest else (k, v) :: mapUpdate rest key f

/-- One step of `impl Merge for BTreeMap` (config.rs): if the key is present,
merge the two values in place, otherwise insert the other map's entry. -/
def mapMergeStep (mergeV : V → V → V) (self : List (String × V))
    (kv : String × V) : List (String × V) :=
  if mapContains self kv.1 then mapUpdate self kv.1 (fun v => mergeV v kv.2)
  else mapInsert self kv.1 kv.2

/-- `impl Merge for BTreeMap` (config.rs lines 246-256): for each entry of
`other`, merge it into `self`. -/
def mapMerge (mergeV : V → V → V) (self other : List (String × V)) :
    List (String × V) :=
  other.foldl (mapMergeStep mergeV) self

/-- Model of `BTreeSet::insert` for sets whose iteration order is irrelevant:
append the element unless already present. -/
def setInsert [DecidableEq K] (s : List K) (x : K) : List K :=
  if x ∈ s then s else s ++ [x]

/-- `impl Merge for BTreeSet` (config.rs lines 258-264): insert every element
of `other` into `self`. -/
def setMerge [DecidableEq K] (self other : List K) : List K :=
  other.foldl setInsert self

/-- `impl<T> Merge for Option<T>` (config.rs lines 266-272): `other` replaces
`self` only when present. -/
def mergeOption (self other : Option V) : Option V :=
  match other with
  | some o => some o
  | none => self

end AssocMap

/-! ### Value and Requirement (cmake.rs) -/

/-- `Value` (cmake.rs): a tagged boolean-or-text option value. -/
inductive Value
  | Boolean : Bool → Value
  | Text : String → Value
deriving DecidableEq, Repr

/-- The `Display` rendering of a `Value` used in error messages. -/
def Value.display : Value → String
  | .Boolean true => "true"
  | .Boolean false => "false"
  | .Text t => t

/-- `Requirement` (cmake.rs): a predicate over another flag's value. -/
inductive Requirement
  | Single : Value → Requirement
  | Any : List Value → Requirement
deriving DecidableEq, Repr

/-- `Requirement::check` (cmake.rs lines 118-125). -/
def Requirement.check (r : Requirement) (value : Value) : Bool :=
  match r with
  | .Single required => value == required
  | .Any requirement => requirement.contains value

/-! ### Setting (cmake.rs) -/

/-- `Setting` (cmake.rs line 334): a `BTreeMap<FlagId, Value>`. -/
structure Setting where
  entries : List (String × Value)
deriving DecidableEq, Repr

/-- The empty setting (`Setting`'s derived `Default`). -/
def Setting.default : Setting := ⟨[]⟩

/-- The `BTreeMap` invariant every real `Setting` satisfies, in the form the
proofs need: keys pairwise distinct.  (The source keeps them sorted as well,
which only strengthens this.) -/
def Setting.wf (s : Setting) : Prop :=
  s.entries.Pairwise (fun p q => p.1 ≠ q.1)

/-- `impl Merge for Setting` (cmake.rs lines 361-365): merge the underlying
maps.  `Value` is a `MergeId`, so the per-value merge is replacement by the
other value. -/
def Setting.merge (self other : Setting) : Setting :=
  ⟨mapMerge (fun _ v => v) self.entries other.entries⟩

/-- `Setting::flag` (cmake.rs lines 377-379): look a flag up, defaulting to
`Boolean(false)` when absent. -/
def Setting.flag (s : Setting) (f : String) : Value :=
  (assocLookup s.entries f).getD (.Boolean false)

/-- `Setting::set_bool` (cmake.rs lines 382-384). -/
def Setting.set_bool (s : Setting) (f : String) (value : Bool) : Setting :=
  ⟨mapInsert s.entries f (.Boolean value)⟩

/-- `Setting::set_text` (cmake.rs lines 387-390). -/
def Setting.set_text (s : Setting) (f : String) (value : String) : Setting :=
  ⟨mapInsert s.entries f (.Text value)⟩

/-- `Setting::set_platform` (cmake.rs lines 392-394). -/
def Setting.set_platform (s : Setting) (p : String) : Setting :=
  s.set_text "platform" p

/-- `Setting::set_kernel_platform` (cmake.rs lines 396-398). -/
def Setting.set_kernel_platform (s : Setting) (p : String) : Setting :=
  s.set_text "kernel-platform" p

/-! ### Flag (cmake.rs) -/

/-- `Flag` (cmake.rs lines 14-21).  The source field `variable` is a Lean
keyword, hence `variable'` here.  `requires` is a `BTreeSet<BTreeMap<FlagId,
Requirement>>`: a disjunction (outer list) of conjunctions (inner maps). -/
structure Flag where
  description : String
  variable' : Option String
  requires : List (List (String × Requirement))
deriving DecidableEq, Repr

/-- `impl Merge for Flag` (cmake.rs lines 23-28): `variable` merges as an
option, `requires` as a set union; `description` is not touched. -/
def Flag.merge (self other : Flag) : Flag :=
  { self with
    variable' := mergeOption self.variable' other.variable',
    requires := setMerge self.requires other.requires }

/-- `Flag::check_requirements` (cmake.rs lines 55-70): at least one
requirement map must have all of its entries satisfied by the setting. -/
def Flag.check_requirements (name : String) (flag : Flag) (setting : Setting) :
    Except String Unit :=
  let satisfied := flag.requires.any (fun required =>
    required.all (fun fr => (fr.2).check (setting.flag fr.1)))
  if !satisfied then
    .error ("None of the requirement sets for the flag " ++ name ++
      " could be satisfied")
  else
    .ok ()

/-- `Flag::validate` (cmake.rs lines 36-52). -/
def Flag.validate (name : String) (flag : Flag) (setting : Setting)
    (value : Value) : Except String Unit :=
  if flag.requires.length > 0 then
    match value with
    | .Boolean true => Flag.check_requirements name flag setting
    | .Boolean false => .ok ()
    | .Text t =>
      .error ("Cannot set flag " ++ name ++
        " with requirements to non-boolean value: " ++ Value.display (.Text t))
  else
    .ok ()

/-! ### Architectures (platform.rs) -/

/-- `Architecture` (platform.rs lines 186-194): the coarse family. -/
inductive Architecture
  | Arm
  | RiscV
  | X86
deriving DecidableEq, Repr

/-- `Sel4Architecture` (platform.rs lines 207-223). -/
inductive Sel4Architecture
  | AArch32
  | AArch64
  | RiscV32
  | RiscV64
  | Ia32
  | X86_64
deriving DecidableEq, Repr

/-- `Sel4Architecture::architecture` (platform.rs lines 226-237): map each
token to its family. -/
def Sel4Architecture.architecture : Sel4Architecture → Architecture
  | .AArch32 => .Arm
  | .AArch64 => .Arm
  | .RiscV32 => .RiscV
  | .RiscV64 => .RiscV
  | .Ia32 => .X86
  | .X86_64 => .X86

/-- `impl FromStr for Sel4Architecture` (platform.rs lines 239-254).  This is
also the deserialisation path: the enum carries `#[serde(try_from = "String")]`
so every decode goes through this function. -/
def Sel4Architecture.from_str (string : String) : Except String Sel4Architecture :=
  match string with
  | "riscv32" => .ok .RiscV32
  | "riscv64" => .ok .RiscV64
  | "aarch32" => .ok .AArch32
  | "arm_hyp" => .ok .AArch32
  | "aarch64" => .ok .AArch64
  | "x86_64" => .ok .X86_64
  | "ia32" => .ok .Ia32
  | _ => .error ("Invalid seL4 architecture: " ++ string)

/-! ### Platform, Variation, Project (platform.rs, project.rs) -/

/-- `Variation` (platform.rs lines 89-93). -/
structure Variation where
  setting : Setting
deriving DecidableEq, Repr

/-- `Platform` (platform.rs lines 13-23).  `variations` is a `NamedMap`,
modelled as an association list keyed by the variation id. -/
structure Platform where
  architectures : List Sel4Architecture
  variations : List (String × Variation)
  setting : Setting
deriving DecidableEq, Repr

/-- `Repository` (project.rs line 242): an (organisation, name) pair. -/
structure Repository where
  organisation : String
  name : String
deriving DecidableEq, Repr

/-- `Project` (project.rs lines 14-31).  `command_line` is a `BTreeSet` of
flag ids. -/
structure Project where
  repository : Repository
  source_directory : Option (List String)
  root_server : Option String
  exit_phrase : Option String
  command_line : List String
  setting : Setting
deriving DecidableEq, Repr

/-- `impl Merge for Project` (project.rs lines 39-44): only `command_line`
and `setting` are merged. -/
def Project.merge (self other : Project) : Project :=
  { self with
    command_line := setMerge self.command_line other.command_line,
    setting := self.setting.merge other.setting }

/-! ### Config (config.rs) -/

/-- `Defaults` (config.rs lines 157-170). -/
structure Defaults where
  git_server : Option String
  docker_image : Option String
  repo_url : Option String
  repo_branch : Option String
  repo_manifest : Option String
deriving DecidableEq, Repr

/-- `Config` (config.rs lines 17-35).  The `NamedMap`s are modelled as
association lists keyed by id. -/
structure Config where
  defaults : Defaults
  flags : List (String × Flag)
  platforms : List (String × Platform)
  architectures : List (Sel4Architecture × Setting)
  projects : List (String × Project)
deriving DecidableEq, Repr

/-- `Config::check_setting` (config.rs lines 85-93): validate every flag that
is both set and present in the catalog. -/
def Config.check_setting (config : Config) (setting : Setting) :
    Except String Unit :=
  setting.entries.forM (fun iv =>
    match assocLookup config.flags iv.1 with
    | some flag => Flag.validate iv.1 flag setting iv.2
    | none => pure ())

/-- `Config::platform_setting` (config.rs lines 104-144): layer the platform,
optional variation, architecture-table and project settings, in that order. -/
def Config.platform_setting (config : Config) (project : String)
    (platform : String) (variation : Option String) (arch : Sel4Architecture) :
    Except String Setting := do
  let mut setting := Setting.default
  let some plat := assocLookup config.platforms platform
    | throw ("No such platform " ++ platform)
  setting := setting.set_kernel_platform platform
  setting := setting.set_platform platform
  setting := setting.merge plat.setting
  match variation with
  | some varId =>
    let some varn := assocLookup plat.variations varId
      | throw ("No such platform variation " ++ varId ++ " for platform " ++
          platform)
    setting := setting.set_platform varId
    setting := setting.merge varn.setting
  | none => pure ()
  match assocLookup config.architectures arch with
  | some archSetting => setting := setting.merge archSetting
  | none => pure ()
  let some proj := assocLookup config.projects project
    | throw ("No such project " ++ project)
  setting := setting.merge proj.setting
  return setting

/-! ### Machine-queue matcher (app.rs) -/

/-- The per-system filter inside `Apps::machine_queue_match_system` (app.rs
lines 171-177): the platform must match and, when a variation is required,
the system's variation must equal it. -/
def systemMatches (platform : String) (variation : Option String)
    (sys : String × Option String) : Bool :=
  platform == sys.1 && (variation.isNone || variation == sys.2)

/-- The individually matching system names, in inventory order (the source
iterates the `BTreeMap` of systems in ascending name order). -/
def matchingSystems (platform : String) (variation : Option String)
    (systems : List (String × String × Option String)) : List String :=
  (systems.filter (fun s => systemMatches platform variation s.2)).map (·.1)

/-- `Apps::machine_queue_match_system` (app.rs lines 164-201).  The system and
pool inventories are passed in explicitly, standing for the parsed `mq.sh`
reports; the lists are in the ascending key order in which the source iterates
the corresponding `BTreeMap`s.  Each pool whose entire membership is contained
in the matching-system set is prepended to the candidate list. -/
def machine_queue_match_system (platform : String) (variation : Option String)
    (systems : List (String × String × Option String))
    (pools : List (String × List String)) : Except String (List String) :=
  let matching := matchingSystems platform variation systems
  let candidates :=
    (pools.filter (fun p => p.2.all (fun m => matching.contains m))).foldl
      (fun acc p => p.1 :: acc) matching
  if candidates.length > 0 then
    .ok candidates
  else
    match variation with
    | some v => .error ("No matching system found for " ++ platform ++ ":" ++ v)
    | none => .error ("No matching system found for " ++ platform)

/-! ### Workspace and build context store (workspace.rs, util.rs) -/

/-- Bitwise NOT of a Rust `usize` value, on `Nat`.  In Rust, `!` applied to an
unsigned integer is the bitwise complement, so `!n = 2^64 - 1 - n` for
`n < 2^64`. -/
def usizeNot (n : Nat) : Nat := 2 ^ 64 - 1 - n % 2 ^ 64

/-- State of one path on disk: absent, a non-directory entry, or a directory
with its number of entries (what `read_dir(..).count()` returns). -/
inductive PathState
  | absent
  | file
  | dir : Nat → PathState
deriving DecidableEq, Repr

/-- Model of `Path::is_dir`. -/
def PathState.isDir : PathState → Bool
  | .dir _ => true
  | _ => false

/-- Model of `Path::exists`. -/
def PathState.isPresent : PathState → Bool
  | .absent => false
  | _ => true

/-- Model of `read_dir(path)?.count()` (only consulted on directories). -/
def PathState.entryCount : PathState → Nat
  | .dir n => n
  | _ => 0

/-- Outcome of the existence/emptiness gate shared by `WorkspaceContext::create`
(workspace.rs lines 228-240) and `BuildContext::create` (lines 333-342). -/
inductive CreateCheck
  | notEmpty
  | alreadyExists
  | canCreate
deriving DecidableEq, Repr

/-- The gate exactly as written in the source:
`if root.is_dir() && !read_dir(&root)?.count() != 0 { bail!(".. is not empty") }
 else if root.exists() { bail!(".. already exists") } else { create_dir_all }`.
Note that `!` binds to the `usize` count, so the first condition is the bitwise
complement of the entry count compared against zero. -/
def dirCreateCheck (st : PathState) : CreateCheck :=
  if st.isDir && (usizeNot st.entryCount != 0) then .notEmpty
  else if st.isPresent then .alreadyExists
  else .canCreate

/-- A filesystem path, as its (already canonical) components. -/
abbrev FsPath := List String

/-- The `Display` rendering of a path used in error messages. -/
def pathDisplay (p : FsPath) : String := "/".intercalate p

/-- `relative_path` (util.rs lines 32-59): strip the common prefix, then one
`..` per remaining component of `from`, then the remaining components of `to`.
Canonicalisation is the identity in this model. -/
def relative_path : FsPath → FsPath → FsPath
  | f :: fr, t :: tr =>
    if f = t then relative_path fr tr
    else ".." :: fr.map (fun _ => "..") ++ t :: tr
  | fromRest, toRest => fromRest.map (fun _ => "..") ++ toRest

/-- `Workspace` (workspace.rs lines 498-505): the workspace marker contents. -/
structure Workspace where
  project : String
  builds : List FsPath
deriving DecidableEq, Repr

/-- `Workspace::FILENAME` (workspace.rs line 509). -/
def Workspace.FILENAME : String := ".s4-workspace.toml"

/-- `CACHE_SUBDIR` (workspace.rs line 217). -/
def CACHE_SUBDIR : String := ".sel4_cache"

/-- `Build` (workspace.rs lines 516-537): the build marker contents. -/
structure Build where
  workspace_root : FsPath
  platform : String
  variation : Option String
  architecture : Sel4Architecture
  setting : Setting
deriving DecidableEq, Repr

/-- `Build::FILENAME` (workspace.rs line 541). -/
def Build.FILENAME : String := ".s4-build.toml"

/-- `Build::new` (workspace.rs lines 543-557). -/
def Build.new (workspace_root : FsPath) (platform : String)
    (variation : Option String) (architecture : Sel4Architecture)
    (setting : Setting) : Build :=
  { workspace_root := workspace_root, platform := platform,
    variation := variation, architecture := architecture, setting := setting }

/-- The modelled filesystem: the state of each path, plus the parsed contents
of saved build and workspace marker files.  The two marker kinds live under
distinct filenames, so they are kept in separate stores.  Entry counts are
consulted by the create gates before anything is written at the gated path, so
marker writes do not need to update them. -/
structure FileSystem where
  state : List (FsPath × PathState)
  builds : List (FsPath × Build)
  workspaces : List (FsPath × Workspace)
deriving DecidableEq, Repr

/-- The state of a path; unrecorded paths are absent. -/
def FileSystem.stateAt (fs : FileSystem) (p : FsPath) : PathState :=
  (assocLookup fs.state p).getD .absent

/-- Model of `create_dir_all`: the path becomes an empty directory. -/
def FileSystem.mkdir (fs : FileSystem) (p : FsPath) : FileSystem :=
  { fs with state := assocSet fs.state p (.dir 0) }

/-- Model of `toml_save` of a `Build` marker. -/
def FileSystem.saveBuild (fs : FileSystem) (p : FsPath) (b : Build) :
    FileSystem :=
  { fs with builds := assocSet fs.builds p b }

/-- Model of `toml_save` of a `Workspace` marker. -/
def FileSystem.saveWorkspace (fs : FileSystem) (p : FsPath) (w : Workspace) :
    FileSystem :=
  { fs with workspaces := assocSet fs.workspaces p w }

/-- `WorkspaceContext` (workspace.rs lines 196-200). -/
structure WorkspaceContext where
  workspace : Workspace
  workspace_root : FsPath
deriving DecidableEq, Repr

/-- `WorkspaceContext::create` (workspace.rs lines 221-255): gate on the target
path, create the directory and the cache subdirectory, write a workspace
marker with an empty build set. -/
def WorkspaceContext.create (project : String) (path : FsPath)
    (fs : FileSystem) : Except String (WorkspaceContext × FileSystem) :=
  let workspace : Workspace := { project := project, builds := [] }
  match dirCreateCheck (fs.stateAt path) with
  | .notEmpty =>
    .error ("Workspace directory " ++ pathDisplay path ++ " is not empty")
  | .alreadyExists =>
    .error ("Workspace directory path " ++ pathDisplay path ++
      " already exists")
  | .canCreate =>
    let fs := fs.mkdir path
    let fs := fs.mkdir (path ++ [CACHE_SUBDIR])
    let fs := fs.saveWorkspace (path ++ [Workspace.FILENAME]) workspace
    .ok ({ workspace := workspace, workspace_root := path }, fs)

/-- `WorkspaceContext::load` (workspace.rs lines 257-267). -/
def WorkspaceContext.load (path : FsPath) (fs : FileSystem) :
    Except String WorkspaceContext :=
  match assocLookup fs.workspaces (path ++ [Workspace.FILENAME]) with
  | some workspace => .ok { workspace := workspace, workspace_root := path }
  | none => .error ("missing workspace marker at " ++ pathDisplay path)

/-- `BuildContext` (workspace.rs lines 290-295). -/
structure BuildContext where
  workspace : WorkspaceContext
  build : Build
  build_root : FsPath
deriving DecidableEq, Repr

/-- `BuildContext::platform` (workspace.rs lines 432-434). -/
def BuildContext.platform (bc : BuildContext) : String := bc.build.platform

/-- `BuildContext::variation` (workspace.rs lines 436-438). -/
def BuildContext.variation (bc : BuildContext) : Option String :=
  bc.build.variation

/-- `BuildContext::architecture` (workspace.rs lines 440-442). -/
def BuildContext.architecture (bc : BuildContext) : Sel4Architecture :=
  bc.build.architecture

/-- `BuildContext::setting` (workspace.rs lines 413-415). -/
def BuildContext.setting (bc : BuildContext) : Setting := bc.build.setting

/-- `BuildContext::create` (workspace.rs lines 316-383): gate on the build
path, create its directory, resolve the effective setting and merge the added
setting on top, write the build marker, register the build in the workspace
and rewrite the workspace marker.  The source calls `create_dir_all` before
resolving the setting; since the model returns no filesystem on the error
path, the directory creation is folded into the success path's filesystem. -/
def BuildContext.create (config : Config) (wsc : WorkspaceContext)
    (platform : String) (variation : Option String)
    (architecture : Sel4Architecture) (added_setting : Setting) (path : FsPath)
    (fs : FileSystem) : Except String (BuildContext × FileSystem) :=
  match dirCreateCheck (fs.stateAt path) with
  | .notEmpty =>
    .error ("Build directory " ++ pathDisplay path ++ " is not empty")
  | .alreadyExists =>
    .error ("Build directory path " ++ pathDisplay path ++ " already exists")
  | .canCreate =>
    match config.platform_setting wsc.workspace.project platform variation
        architecture with
    | .error e => .error e
    | .ok resolved =>
      let setting := resolved.merge added_setting
      let build := Build.new (relative_path path wsc.workspace_root)
        platform variation architecture setting
      let workspace := { wsc.workspace with
        builds := setInsert wsc.workspace.builds
          (relative_path wsc.workspace_root path) }
      let fs := ((fs.mkdir path).saveBuild
        (path ++ [Build.FILENAME]) build).saveWorkspace
        (wsc.workspace_root ++ [Workspace.FILENAME]) workspace
      let wsc' : WorkspaceContext :=
        { workspace := workspace, workspace_root := wsc.workspace_root }
      .ok ({ workspace := wsc', build := build, build_root := path }, fs)

/-- `BuildContext::load` (workspace.rs lines 386-399): read the build marker
at the path and pair it with the given workspace context. -/
def BuildContext.load (wsc : WorkspaceContext) (path : FsPath)
    (fs : FileSystem) : Except String BuildContext :=
  match assocLookup fs.builds (path ++ [Build.FILENAME]) with
  | some build =>
    .ok { workspace := wsc, build := build, build_root := path }
  | none => .error ("missing build marker at " ++ pathDisplay path)

/-! ### Concrete example data used by the verification theorems -/

/-- Decidability of the `Setting` well-formedness predicate. -/
instance (s : Setting) : Decidable s.wf := by
  unfold Setting.wf; infer_instance

/-- Variation `V` of the precedence example: sets `mcs = true`. -/
def exVariationV : Variation := ⟨⟨[("mcs", .Boolean true)]⟩⟩

/-- Platform `P` of the precedence example: sets `mcs = false`. -/
def exPlatformP : Platform :=
  { architectures := [], variations := [("V", exVariationV)],
    setting := ⟨[("mcs", .Boolean false)]⟩ }

/-- Project `J` of the precedence example: sets `mcs = false`. -/
def exProjectJ : Project :=
  { repository := ⟨"org", "proj"⟩, source_directory := none,
    root_server := none, exit_phrase := none, command_line := [],
    setting := ⟨[("mcs", .Boolean false)]⟩ }

/-- Defaults with nothing overridden. -/
def exDefaults : Defaults := ⟨none, none, none, none, none⟩

/-- A configuration holding platform `P` (with variation `V`) and project `J`,
and an empty architecture-settings table. -/
def exConfig : Config :=
  { defaults := exDefaults, flags := [], platforms := [("P", exPlatformP)],
    architectures := [], projects := [("J", exProjectJ)] }

/-- System inventory of the machine-queue example:
`{a:(plat1,var1), b:(plat1,var2), c:(plat2,_)}`. -/
def exSystems : List (String × String × Option String) :=
  [("a", ("plat1", some "var1")), ("b", ("plat1", some "var2")),
   ("c", ("plat2", none))]

/-- Pool inventory of the machine-queue example: `{poolA:{a,b}}`. -/
def exPools : List (String × List String) := [("poolA", ["a", "b"])]

/-- A workspace context for project `J` rooted at `w`. -/
def exWsc : WorkspaceContext :=
  { workspace := { project := "J", builds := [] }, workspace_root := ["w"] }

/-- An empty filesystem. -/
def exFs0 : FileSystem := { state := [], builds := [], workspaces := [] }

/-- A filesystem where `w` exists as an empty directory. -/
def exFsEmptyDirW : FileSystem :=
  { state := [(["w"], .dir 0)], builds := [], workspaces := [] }

/-- A filesystem where `b` exists as an empty directory. -/
def exFsEmptyDirB : FileSystem :=
  { state := [(["b"], .dir 0)], builds := [], workspaces := [] }

/-- Flag `F` of the validation example, with
`requires = {{x: true}, {y: "a"}}`. -/
def exFlagF : Flag :=
  { description := "d", variable' := none,
    requires := [[("x", .Single (.Boolean true))],
                 [("y", .Single (.Text "a"))]] }

/-- A setting with `x = true`. -/
def exSettingX : Setting := ⟨[("x", .Boolean true)]⟩

/-- An arbitrary setting used by the merge witnesses. -/
def exA : Setting := ⟨[("b", .Boolean true)]⟩

/-- A second setting used by the merge witnesses. -/
def exB : Setting := ⟨[("a", .Text "x"), ("c", .Boolean false)]⟩

/-- The added setting of the round-trip witness. -/
def exAdded : Setting := ⟨[("extra", .Text "x")]⟩

/-- The build record produced by the round-trip witness. -/
def exBuild8 : Build :=
  { workspace_root := ["..", "w"], platform := "P", variation := some "V",
    architecture := .AArch64,
    setting := ⟨[("extra", .Text "x"), ("kernel-platform", .Text "P"),
                 ("mcs", .Boolean false), ("platform", .Text "V")]⟩ }

/-- The workspace record produced by the round-trip witness. -/
def exWorkspace8 : Workspace := { project := "J", builds := [["..", "b"]] }

/-- The build context produced by the round-trip witness. -/
def exBC8 : BuildContext :=
  { workspace := { workspace := exWorkspace8, workspace_root := ["w"] },
    build := exBuild8, build_root := ["b"] }

/-- The filesystem produced by the round-trip witness. -/
def exFs8 : FileSystem :=
  { state := [(["b"], .dir 0)],
    builds := [(["b", ".s4-build.toml"], exBuild8)],
    workspaces := [(["w", ".s4-workspace.toml"], exWorkspace8)] }

/-! ### Lemmas about the association-map operations -/

theorem assocLookup_assocSet_self {K V : Type} [DecidableEq K]
    (m : List (K × V)) (k : K) (v : V) :
    assocLookup (assocSet m k v) k = some v := by
  induction m with
  | nil => simp [assocSet, assocLookup]
  | cons hd tl ih =>
    obtain ⟨k₀, v₀⟩ := hd
    by_cases h : k = k₀
    · simp [assocSet, h, assocLookup]
    · simp [assocSet, h, assocLookup, ih]

theorem assocLookup_mapInsert_self {V : Type} (m : List (String × V))
    (k : String) (v : V) :
    assocLookup (mapInsert m k v) k = some v := by
  induction m with
  | nil => simp [mapInsert, assocLookup]
  | cons hd tl ih =>
    obtain ⟨k₀, v₀⟩ := hd
    by_cases h1 : stringLt k k₀ = true
    · simp [mapInsert, h1, assocLookup]
    · by_cases h2 : k = k₀
      · subst h2
        simp [mapInsert, h1, assocLookup]
      · simp [mapInsert, h1, h2, assocLookup, ih]

theorem assocLookup_mapInsert_ne {V : Type} (m : List (String × V))
    (k k' : String) (v : V) (h : k' ≠ k) :
    assocLookup (mapInsert m k v) k' = assocLookup m k' := by
  induction m with
  | nil => simp [mapInsert, assocLookup, h]
  | cons hd tl ih =>
    obtain ⟨k₀, v₀⟩ := hd
    by_cases h1 : stringLt k k₀ = true
    · simp [mapInsert, h1, assocLookup, h]
    · by_cases h2 : k = k₀
      · subst h2
        simp [mapInsert, h1, assocLookup, h]
      · simp [mapInsert, h1, h2, assocLookup, ih]

theorem assocLookup_mapUpdate_self {V : Type} (m : List (String × V))
    (k : String) (f : V → V) :
    assocLookup (mapUpdate m k f) k = (assocLookup m k).map f := by
  induction m with
  | nil => simp [mapUpdate, assocLookup]
  | cons hd tl ih =>
    obtain ⟨k₀, v₀⟩ := hd
    by_cases h : k = k₀
    · simp [mapUpdate, h, assocLookup]
    · simp [mapUpdate, h, assocLookup, ih]

theorem assocLookup_mapUpdate_ne {V : Type} (m : List (String × V))
    (k k' : String) (f : V → V) (h : k' ≠ k) :
    assocLookup (mapUpdate m k f) k' = assocLookup m k' := by
  induction m with
  | nil => simp [mapUpdate]
  | cons hd tl ih =>
    obtain ⟨k₀, v₀⟩ := hd
    by_cases hk : k = k₀
    · subst hk
      simp [mapUpdate, assocLookup, h]
    · simp [mapUpdate, hk, assocLookup, ih]

theorem mapUpdate_const_of_lookup {V : Type} (m : List (String × V))
    (k : String) (v : V) (h : assocLookup m k = some v) :
    mapUpdate m k (fun _ => v) = m := by
  induction m with
  | nil => simp [mapUpdate]
  | cons hd tl ih =>
    obtain ⟨k₀, v₀⟩ := hd
    by_cases hk : k = k₀
    · simp [assocLookup, hk] at h
      simp [mapUpdate, hk, h]
    · simp [assocLookup, hk] at h
      simp [mapUpdate, hk, ih h]

theorem assocLookup_mapMergeStep_self {V : Type} (m : List (String × V))
    (kv : String × V) :
    assocLookup (mapMergeStep (fun _ v => v) m kv) kv.1 = some kv.2 := by
  obtain ⟨k, v⟩ := kv
  by_cases hc : mapContains m k = true
  · obtain ⟨w, hw⟩ := Option.isSome_iff_exists.mp hc
    simp [mapMergeStep, hc, assocLookup_mapUpdate_self, hw]
  · simp [mapMergeStep, hc, assocLookup_mapInsert_self]

theorem assocLookup_mapMergeStep_ne {V : Type} (mv : V → V → V)
    (m : List (String × V)) (kv : String × V) (k' : String) (h : k' ≠ kv.1) :
    assocLookup (mapMergeStep mv m kv) k' = assocLookup m k' := by
  obtain ⟨k, v⟩ := kv
  by_cases hc : mapContains m k = true
  · simp [mapMergeStep, hc, assocLookup_mapUpdate_ne m k k' _ h]
  · simp [mapMergeStep, hc, assocLookup_mapInsert_ne m k k' v h]

theorem mapMerge_cons {V : Type} (mv : V → V → V) (m : List (String × V))
    (kv : String × V) (rest : List (String × V)) :
    mapMerge mv m (kv :: rest) = mapMerge mv (mapMergeStep mv m kv) rest := rfl

theorem assocLookup_mapMerge_notmem {V : Type} (mv : V → V → V) (k : String) :
    ∀ (other m : List (String × V)), k ∉ other.map Prod.fst →
      assocLookup (mapMerge mv m other) k = assocLookup m k := by
  intro other
  induction other with
  | nil => intro m _; rfl
  | cons hd tl ih =>
    intro m h
    simp only [List.map_cons, List.mem_cons] at h
    push_neg at h
    rw [mapMerge_cons, ih (mapMergeStep mv m hd) h.2,
      assocLookup_mapMergeStep_ne mv m hd k h.1]

theorem assocLookup_mapMerge_mem {V : Type} (kv : String × V) :
    ∀ (other m : List (String × V)),
      other.Pairwise (fun p q => p.1 ≠ q.1) → kv ∈ other →
      assocLookup (mapMerge (fun _ v => v) m other) kv.1 = some kv.2 := by
  intro other
  induction other with
  | nil => intro m _ hmem; cases hmem
  | cons hd tl ih =>
    intro m hdist hmem
    rw [mapMerge_cons]
    rcases List.mem_cons.mp hmem with heq | htl
    · subst heq
      have hnot : kv.1 ∉ tl.map Prod.fst := by
        rw [List.pairwise_cons] at hdist
        intro hmm
        obtain ⟨q, hq, hq1⟩ := List.mem_map.mp hmm
        exact (hdist.1 q hq) hq1.symm
      rw [assocLookup_mapMerge_notmem _ kv.1 tl _ hnot]
      exact assocLookup_mapMergeStep_self m kv
    · exact ih (mapMergeStep _ m hd) (List.pairwise_cons.mp hdist).2 htl

theorem mapMerge_absorb {V : Type} (other m : List (String × V)) :
    (∀ kv ∈ other, assocLookup m kv.1 = some kv.2) →
    mapMerge (fun _ v => v) m other = m := by
  induction other with
  | nil => intro _; rfl
  | cons hd tl ih =>
    intro h
    have hhd := h hd (List.mem_cons_self hd tl)
    have hc : mapContains m hd.1 = true := by
      unfold mapContains
      rw [hhd]
      rfl
    have hstep : mapMergeStep (fun _ v => v) m hd = m := by
      simp only [mapMergeStep, hc, if_true]
      exact mapUpdate_const_of_lookup m hd.1 hd.2 hhd
    rw [mapMerge_cons, hstep]
    exact ih (fun kv hkv => h kv (List.mem_cons_of_mem hd hkv))

theorem foldl_prepend_eq_reverse_map_append {α β : Type} (f : α → β) :
    ∀ (l : List α) (init : List β),
      l.foldl (fun acc x => f x :: acc) init = (l.map f).reverse ++ init := by
  intro l
  induction l with
  | nil => intro init; rfl
  | cons hd tl ih =>
    intro init
    simp only [List.foldl_cons, List.map_cons, List.reverse_cons,
      List.append_assoc, List.singleton_append]
    rw [ih]

/-! ### Claim theorems -/

/-- Claim C1: the claim states that creation succeeds when the target path
does not exist or exists as an empty directory.  The code disagrees: because
`!` in `!read_dir(..)?.count() != 0` is the bitwise complement of the `usize`
entry count, the condition holds for every existing directory, so an existing
empty directory is rejected with the (self-contradicting) message that it
"is not empty".  This theorem evaluates the modelled code at that failing
input, for both `WorkspaceContext::create` and `BuildContext::create`, and
records the gate's verdicts on an empty directory and on an absent path. -/
theorem create_rejects_existing_empty_directory :
    WorkspaceContext.create "J" ["w"] exFsEmptyDirW
      = .error "Workspace directory w is not empty" ∧
    BuildContext.create exConfig exWsc "P" none .AArch64 Setting.default ["b"]
        exFsEmptyDirB
      = .error "Build directory b is not empty" ∧
    dirCreateCheck (.dir 0) = .notEmpty ∧
    dirCreateCheck .absent = .canCreate := by
  refine ⟨rfl, rfl, rfl, rfl⟩

/-- Claim C2: `validate` accepts every value when `requires` is empty; with a
non-empty `requires` it accepts `Boolean(true)` exactly when some conjunction
is fully satisfied (absent dependency flags reading as `Boolean(false)`),
always accepts `Boolean(false)`, and rejects every non-boolean value. -/
theorem flag_validate_characterisation (name : String) (flag : Flag)
    (setting : Setting) :
    (flag.requires = [] → ∀ v, Flag.validate name flag setting v = .ok ()) ∧
    (flag.requires ≠ [] →
      ((Flag.validate name flag setting (.Boolean true) = .ok ()) ↔
        ∃ conj ∈ flag.requires,
          ∀ fr ∈ conj, (fr.2).check (setting.flag fr.1) = true) ∧
      Flag.validate name flag setting (.Boolean false) = .ok () ∧
      (∀ t, Flag.validate name flag setting (.Text t) =
        .error ("Cannot set flag " ++ name ++
          " with requirements to non-boolean value: " ++ t))) ∧
    (∀ f, assocLookup setting.entries f = none →
      setting.flag f = .Boolean false) := by
  refine ⟨?_, ?_, ?_⟩
  · intro h v
    simp [Flag.validate, h]
  · intro h
    have hlen : 0 < flag.requires.length := List.length_pos.mpr h
    have hval : Flag.validate name flag setting (.Boolean true)
        = Flag.check_requirements name flag setting := by
      unfold Flag.validate
      rw [if_pos hlen]
    have hiff : (Flag.check_requirements name flag setting = .ok ()) ↔
        (flag.requires.any fun required =>
          required.all fun fr => (fr.2).check (setting.flag fr.1)) = true := by
      simp only [Flag.check_requirements]
      by_cases hs : (flag.requires.any fun required =>
          required.all fun fr => (fr.2).check (setting.flag fr.1)) = true
      · simp [hs]
      · simp [hs]
    refine ⟨?_, ?_, ?_⟩
    · rw [hval, hiff, List.any_eq_true]
      simp only [List.all_eq_true]
    · unfold Flag.validate
      rw [if_pos hlen]
    · intro t
      unfold Flag.validate
      rw [if_pos hlen]
      rfl
  · intro f hf
    simp [Setting.flag, hf]

/-- Witness for C2: flag `F` with `requires = {{x: true}, {y: "a"}}` has a
non-empty requirement set, and setting it to `true` is accepted in a setting
where `x = true`. -/
theorem flag_validate_characterisation_witness :
    exFlagF.requires ≠ [] ∧
    Flag.validate "F" exFlagF exSettingX (.Boolean true) = .ok () :=
  ⟨by decide,
    (((flag_validate_characterisation "F" exFlagF exSettingX).2.1
        (by decide)).1).mpr
      ⟨[("x", .Single (.Boolean true))], by decide, by decide⟩⟩

/-- Claim C3: resolution layers platform, variation, architecture table and
project in order, later layers overriding; concretely, with platform `P`
setting `mcs=false`, variation `V` setting `mcs=true` and project `J` setting
`mcs=false`, resolving `(J, P, V, a)` for every architecture `a` yields
`mcs=false` (and the `platform` text flag overridden to the variation's
name). -/
theorem platform_setting_precedence_example (a : Sel4Architecture) :
    exConfig.platform_setting "J" "P" (some "V") a
      = .ok ⟨[("kernel-platform", .Text "P"), ("mcs", .Boolean false),
              ("platform", .Text "V")]⟩ ∧
    (exConfig.platform_setting "J" "P" (some "V") a).map (fun s => s.flag "mcs")
      = .ok (.Boolean false) := by
  cases a <;> exact ⟨rfl, rfl⟩

/-- Claim C4: every successful match returns the qualifying pools (those whose
entire membership lies inside the matching-system set) ahead of the
individually matching system names; an empty candidate set produces an error
naming the requested platform (and variation, if any); and the three concrete
inventory examples evaluate as the claim states. -/
theorem machine_queue_match_characterisation :
    (∀ (platform : String) (variation : Option String)
        (systems : List (String × String × Option String))
        (pools : List (String × List String)) (l : List String),
      machine_queue_match_system platform variation systems pools = .ok l →
      l = ((pools.filter (fun p => p.2.all
              (fun m => (matchingSystems platform variation systems).contains
                m))).map (fun p => p.1)).reverse
          ++ matchingSystems platform variation systems) ∧
    (∀ (platform : String) (variation : Option String)
        (systems : List (String × String × Option String))
        (pools : List (String × List String)),
      matchingSystems platform variation systems = [] →
      pools.filter (fun p => p.2.all
        (fun m => (matchingSystems platform variation systems).contains m))
        = [] →
      machine_queue_match_system platform variation systems pools
        = .error (match variation with
            | some v => "No matching system found for " ++ platform ++ ":" ++ v
            | none => "No matching system found for " ++ platform)) ∧
    machine_queue_match_system "plat1" none exSystems exPools
      = .ok ["poolA", "a", "b"] ∧
    machine_queue_match_system "plat2" none exSystems exPools = .ok ["c"] ∧
    machine_queue_match_system "plat3" none exSystems exPools
      = .error "No matching system found for plat3" := by
  refine ⟨?_, ?_, rfl, rfl, rfl⟩
  · intro platform variation systems pools l h
    simp only [machine_queue_match_system,
      foldl_prepend_eq_reverse_map_append
        (fun p : String × List String => p.1)] at h
    split at h
    · exact (Except.ok.inj h).symm
    · cases variation <;> simp at h
  · intro platform variation systems pools h1 h2
    simp only [machine_queue_match_system]
    rw [h2]
    simp only [List.foldl_nil]
    rw [h1]
    simp only [List.length_nil, gt_iff_lt, lt_self_iff_false, if_false]
    cases variation <;> rfl

/-- Witness for C4: the decomposition of the successful `plat1` match into
qualifying pools followed by the individually matching systems. -/
theorem machine_queue_match_characterisation_witness :
    ["poolA", "a", "b"]
      = ((exPools.filter (fun p => p.2.all
            (fun m => (matchingSystems "plat1" none exSystems).contains
              m))).map (fun p => p.1)).reverse
        ++ matchingSystems "plat1" none exSystems :=
  machine_queue_match_characterisation.1 "plat1" none exSystems exPools
    ["poolA", "a", "b"] (by rfl)

/-- Claim C5: the claim states that parsing accepts the aliases `amd64` and
`X64` for x86_64 besides `arm_hyp` for aarch32.  The code's `from_str` (which
is also the deserialisation path, via `try_from = "String"`) accepts only the
six canonical tokens plus `arm_hyp`, rejecting `amd64` and `X64` even though
the enum's (dead) serde attributes declare them as aliases.  This theorem
evaluates the parser on all canonical tokens, the working alias, and the two
failing inputs. -/
theorem sel4_architecture_from_str_aliases :
    Sel4Architecture.from_str "riscv32" = .ok .RiscV32 ∧
    Sel4Architecture.from_str "riscv64" = .ok .RiscV64 ∧
    Sel4Architecture.from_str "aarch32" = .ok .AArch32 ∧
    Sel4Architecture.from_str "aarch64" = .ok .AArch64 ∧
    Sel4Architecture.from_str "ia32" = .ok .Ia32 ∧
    Sel4Architecture.from_str "x86_64" = .ok .X86_64 ∧
    Sel4Architecture.from_str "arm_hyp" = .ok .AArch32 ∧
    Sel4Architecture.from_str "amd64"
      = .error "Invalid seL4 architecture: amd64" ∧
    Sel4Architecture.from_str "X64"
      = .error "Invalid seL4 architecture: X64" := by
  refine ⟨rfl, rfl, rfl, rfl, rfl, rfl, rfl, rfl, rfl⟩

/-- Claim C6: merging the empty `Setting` into any `Setting` leaves it
unchanged. -/
theorem setting_merge_empty_identity (A : Setting) :
    A.merge Setting.default = A := rfl

/-- Claim C7: re-applying an unchanged layer is idempotent:
`merge(merge(A, B), B) = merge(A, B)` for every `Setting` A and every
well-formed `Setting` B (real `BTreeMap`-backed settings always are). -/
theorem setting_remerge_idempotent (A B : Setting) (hB : B.wf) :
    (A.merge B).merge B = A.merge B := by
  obtain ⟨a⟩ := A
  obtain ⟨b⟩ := B
  have hb : b.Pairwise (fun p q => p.1 ≠ q.1) := hB
  simp only [Setting.merge]
  congr 1
  apply mapMerge_absorb
  intro kv hkv
  exact assocLookup_mapMerge_mem kv b a hb hkv

/-- Witness for C7: a concrete well-formed layer re-applied over a merged
setting changes nothing. -/
theorem setting_remerge_idempotent_witness :
    exB.wf ∧ (exA.merge exB).merge exB = exA.merge exB :=
  ⟨by decide, setting_remerge_idempotent exA exB (by decide)⟩

/-- Claim C8: whenever `BuildContext::create` succeeds at a path,
`BuildContext::load` at that path yields a build context whose platform,
variation, architecture and setting equal the recorded ones, the setting being
the resolved effective setting with the added setting merged on top. -/
theorem build_create_load_roundtrip
    (config : Config) (wsc : WorkspaceContext) (platform : String)
    (variation : Option String) (architecture : Sel4Architecture)
    (added : Setting) (path : FsPath) (bc : BuildContext) (fs fs' : FileSystem)
    (hc : BuildContext.create config wsc platform variation architecture added
      path fs = .ok (bc, fs')) :
    (BuildContext.load wsc path fs').map
        (fun b => (b.platform, b.variation, b.architecture, b.setting))
      = (config.platform_setting wsc.workspace.project platform variation
          architecture).map
          (fun s => (platform, variation, architecture, s.merge added)) := by
  unfold BuildContext.create at hc
  cases hgate : dirCreateCheck (fs.stateAt path) <;> rw [hgate] at hc
  · exact absurd hc (by simp)
  · exact absurd hc (by simp)
  · cases hps : config.platform_setting wsc.workspace.project platform
        variation architecture <;> rw [hps] at hc
    · exact absurd hc (by simp)
    · simp only [Except.ok.injEq, Prod.mk.injEq] at hc
      obtain ⟨hbc, hfs⟩ := hc
      subst hfs
      simp only [BuildContext.load, FileSystem.saveWorkspace,
        FileSystem.saveBuild, FileSystem.mkdir, assocLookup_assocSet_self,
        Except.map, Build.new, BuildContext.platform, BuildContext.variation,
        BuildContext.architecture, BuildContext.setting]

/-- Witness for C8: a concrete create at an absent path succeeds with the
expected build context and filesystem, and the loaded fields round-trip. -/
theorem build_create_load_roundtrip_witness :
    BuildContext.create exConfig exWsc "P" (some "V") .AArch64 exAdded ["b"]
        exFs0 = .ok (exBC8, exFs8) ∧
    (BuildContext.load exWsc ["b"] exFs8).map
        (fun b => (b.platform, b.variation, b.architecture, b.setting))
      = (exConfig.platform_setting "J" "P" (some "V") .AArch64).map
          (fun s => ("P", some "V", Sel4Architecture.AArch64,
            s.merge exAdded)) :=
  ⟨rfl, build_create_load_roundtrip exConfig exWsc "P" (some "V") .AArch64
      exAdded ["b"] exBC8 exFs0 exFs8 rfl⟩

/-- Claim C9: merging one flag definition into another never changes the
description; only the `variable` and `requires` fields are updated, by the
option-override and set-union merges respectively. -/
theorem flag_merge_preserves_description (f g : Flag) :
    (f.merge g).description = f.description ∧
    (f.merge g).variable' = mergeOption f.variable' g.variable' ∧
    (f.merge g).requires = setMerge f.requires g.requires :=
  ⟨rfl, rfl, rfl⟩

/-- Claim C10: merging one project definition into another leaves
`repository`, `source_directory`, `root_server` and `exit_phrase` unchanged;
only the `command_line` set and the `setting` are updated, by set union and
setting merge respectively. -/
theorem project_merge_frame (p q : Project) :
    (p.merge q).repository = p.repository ∧
    (p.merge q).source_directory = p.source_directory ∧
    (p.merge q).root_server = p.root_server ∧
    (p.merge q).exit_phrase = p.exit_phrase ∧
    (p.merge q).command_line = setMerge p.command_line q.command_line ∧
    (p.merge q).setting = p.setting.merge q.setting :=
  ⟨rfl, rfl, rfl, rfl, rfl, rfl⟩

end S4
